import Mathlib

/-!
Verification of the hac-client-core repository: a shallow embedding of the
data model, session cache, authentication handler and client error-handling
logic, together with theorems settling the specification claims.

Conventions of the embedding:
* Python strings are Lean String (operated on via the underlying List Char);
* Python float timestamps are embedded as rationals (only copying and order
  comparisons occur in the modelled code);
* Python exceptions are values of the PyExc type, raised through Except;
* the file-system session cache is an association list from the key string
  (the md5 preimage built by get_session_key; md5 itself is kept abstract
  since it is a deterministic function of that string) to stored entries;
* fuel-indexed recursion is used for the scanning loops so that every
  definition is executable by the kernel; the fuel is always instantiated
  with the input length, which the lemmas show is sufficient.
-/

/-! ## Python exception model

The exception classes that appear in the client code, with the pieces of the
Python class hierarchy the handlers depend on: requests.RequestException
subclasses IOError (= OSError), and requests.HTTPError subclasses
RequestException.  HacAuthenticationError subclasses HacClientError which
subclasses Exception directly. -/

inductive PyExc where
  | oserror : PyExc
  | keyError : PyExc
  | typeError : PyExc
  | valueError : PyExc
  | runtimeError : PyExc
  | attributeError : PyExc
  | requestException : PyExc
  | httpError (status : Nat) : PyExc
  | hacClientError (msg : String) : PyExc
  | hacAuthenticationError : PyExc
deriving DecidableEq

/-- requests.RequestException and its subclass requests.HTTPError both
subclass IOError, which is an alias of OSError. -/
def PyExc.isOSError : PyExc → Bool
  | .oserror => true
  | .requestException => true
  | .httpError _ => true
  | _ => false

/-- Membership in the except clause (requests.RequestException,) used by the
operation methods. -/
def PyExc.isRequestException : PyExc → Bool
  | .requestException => true
  | .httpError _ => true
  | _ => false

/-! ## models.py : result dataclasses -/

structure ImpexResult where
  success : Bool
  output : String
  error : Option String
  validation_errors : Option (List String)
deriving DecidableEq

/-- Constructing an ImpexResult runs the dataclass init followed by
ImpexResult.post_init, which replaces a missing validation_errors with the
empty list. -/
def mkImpexResult (success : Bool) (output : String) (error : Option String)
    (validation_errors : Option (List String)) : ImpexResult :=
  { success := success, output := output, error := error,
    validation_errors := some (validation_errors.getD []) }

structure UpdateParameter where
  name : String
  label : String
  values : List (String × Bool)
  legacy : Bool
  multi_select : Bool
  default : Option String
deriving DecidableEq

structure ProjectData where
  name : String
  description : Option String
  parameters : List UpdateParameter
deriving DecidableEq

/-- ProjectData.has_parameters. -/
def ProjectData.has_parameters (pd : ProjectData) : Bool :=
  !pd.parameters.isEmpty

structure UpdateData where
  is_initializing : Bool
  project_datas : List ProjectData
deriving DecidableEq

structure UpdateResult where
  success : Bool
  log_html : String
deriving DecidableEq

structure UpdateLog where
  log_html : String
deriving DecidableEq

structure SessionInfo where
  session_id : String
  csrf_token : String
  route_cookie : Option String
  is_authenticated : Bool
deriving DecidableEq

/-! ## models.py : string helpers for get_patches_extension -/

/-- Needle-at-front test on character lists; the Boolean core of the Python
substring and startswith operations. -/
def charsAtFront : List Char → List Char → Bool
  | [], _ => true
  | _ :: _, [] => false
  | a :: as, b :: bs => if a = b then charsAtFront as bs else false

/-- Python substring containment (the in operator on str). -/
def charsContain (needle : List Char) : List Char → Bool
  | [] => needle.isEmpty
  | c :: t => charsAtFront needle (c :: t) || charsContain needle t

/-- Python str.endswith. -/
def charsEndWith (needle hay : List Char) : Bool :=
  charsAtFront needle.reverse hay.reverse

/-- Python str.lower, restricted to the character-wise lowering that the
ASCII extension names in this code base exercise. -/
def pyLower (s : String) : String :=
  String.mk (s.data.map Char.toLower)

/-- Candidate predicate of UpdateData.get_patches_extension:
the lowered name contains "patches". -/
def patchesCand (pd : ProjectData) : Bool :=
  charsContain "patches".data (pyLower pd.name).data

/-- Tie-break predicate: lowered name differs from the literal "patches". -/
def patchesSpecific (pd : ProjectData) : Bool :=
  decide (pyLower pd.name ≠ "patches")

/-- Fallback predicate of the parameterless branch: lowered name ends with
"patches" and is not the literal "patches". -/
def patchesSuffixed (pd : ProjectData) : Bool :=
  charsEndWith "patches".data (pyLower pd.name).data && patchesSpecific pd

/-- UpdateData.get_patches_extension, translated clause by clause from the
source: filter candidates, prefer those with parameters, among them prefer
non-literal names, otherwise prefer suffixed non-literal names, otherwise
the first candidate. -/
def UpdateData.get_patches_extension (u : UpdateData) : Option ProjectData :=
  match u.project_datas.filter patchesCand with
  | [] => none
  | c0 :: cs =>
    match (c0 :: cs).filter ProjectData.has_parameters with
    | [] =>
      match (c0 :: cs).filter patchesSuffixed with
      | [] => some c0
      | p :: _ => some p
    | w0 :: ws =>
      match (w0 :: ws).filter patchesSpecific with
      | [] => some w0
      | p :: _ => some p

/-! ## models.py : html_to_text pipeline -/

/-- Python str.replace for a non-empty needle, written with an explicit fuel
that bounds the number of scanning steps; replGo consumes at least one input
character per step, so fuel equal to the input length always suffices. -/
def replGo (needle repl : List Char) : Nat → List Char → List Char
  | _, [] => []
  | 0, s => s
  | Nat.succ f, c :: t =>
    if charsAtFront needle (c :: t) ∧ needle ≠ [] then
      repl ++ replGo needle repl f (List.drop (needle.length - 1) t)
    else
      c :: replGo needle repl f t

def pyReplace (needle repl s : List Char) : List Char :=
  replGo needle repl s.length s

/-- Scan for the closing angle bracket of a tag opened just before the
argument list; the regex piece [^>]+> requires at least one preceding
non-closing character, recorded in the seen flag. -/
def findTagEnd : Bool → List Char → Option (List Char)
  | _, [] => none
  | seen, c :: t => if c = '>' then (if seen then some t else none) else findTagEnd true t

/-- The substitution re.sub(r'<[^>]+>', '', text): drop every tag, keep an
angle bracket that opens no complete tag. -/
def stripTagsGo : Nat → List Char → List Char
  | _, [] => []
  | 0, s => s
  | Nat.succ f, c :: t =>
    if c = '<' then
      match findTagEnd false t with
      | some rest => stripTagsGo f rest
      | none => '<' :: stripTagsGo f t
    else c :: stripTagsGo f t

def stripTags (s : List Char) : List Char :=
  stripTagsGo s.length s

/-- Named entities recognised by the model of html.unescape.  The stdlib
table is much larger; the model keeps the entities the HAC log output and
the claims exercise, which is enough because the later pipeline stages are
insensitive to which entity table is used. -/
def entityTable : List (List Char × Char) :=
  [("amp;".data, '&'), ("lt;".data, '<'), ("gt;".data, '>'),
   ("quot;".data, '"'), ("apos;".data, '\''), ("nbsp;".data, ' ')]

def findEntity : List (List Char × Char) → List Char → Option (Char × List Char)
  | [], _ => none
  | (pat, ch) :: rest, s =>
    if charsAtFront pat s then some (ch, List.drop pat.length s) else findEntity rest s

/-- Model of html.unescape over the entity table above. -/
def unescapeGo : Nat → List Char → List Char
  | _, [] => []
  | 0, s => s
  | Nat.succ f, c :: t =>
    if c = '&' then
      match findEntity entityTable t with
      | some (ch, rest) => ch :: unescapeGo f rest
      | none => '&' :: unescapeGo f t
    else c :: unescapeGo f t

def pyUnescape (s : List Char) : List Char :=
  unescapeGo s.length s

/-- The substitution re.sub(r'\n\x7b3,\x7d', '\n\n', text): every maximal run
of three or more newlines becomes exactly two. -/
def collapseGo : Nat → List Char → List Char
  | _, [] => []
  | 0, s => s
  | Nat.succ f, c :: t =>
    if c = '\n' then
      (if 3 ≤ 1 + (t.takeWhile fun d => d = '\n').length
        then ['\n', '\n']
        else List.replicate (1 + (t.takeWhile fun d => d = '\n').length) '\n')
        ++ collapseGo f (t.dropWhile fun d => d = '\n')
    else c :: collapseGo f t

def collapseNewlines (s : List Char) : List Char :=
  collapseGo s.length s

/-- Whitespace characters stripped by Python str.strip. -/
def isPySpace (c : Char) : Bool :=
  c = ' ' || c = '\t' || c = '\n' || c = '\r' || c = '\x0b' || c = '\x0c'

/-- Python str.strip. -/
def pyStrip (l : List Char) : List Char :=
  ((l.dropWhile isPySpace).reverse.dropWhile isPySpace).reverse

/-- models.py html_to_text: the full pipeline of the source function. -/
def html_to_text (s : String) : String :=
  String.mk (pyStrip (collapseNewlines (pyUnescape (stripTags
    (pyReplace "<br>".data "\n".data
      (pyReplace "<br/>".data "\n".data s.data))))))

/-- UpdateResult.log_text. -/
def UpdateResult.log_text (r : UpdateResult) : String :=
  html_to_text r.log_html

/-- UpdateLog.log_text. -/
def UpdateLog.log_text (r : UpdateLog) : String :=
  html_to_text r.log_html

/-! ## session.py : SessionMetadata and the SessionManager cache

Timestamps are rationals; the modelled code only copies and compares them.
The cache is an association list from the md5 preimage string produced by
get_session_key to the stored file content; a file that json.load or the
SessionMetadata constructor rejects is the corrupt case. -/

structure SessionMetadata where
  session_id : String
  csrf_token : String
  route_cookie : Option String
  environment : String
  base_url : String
  username : String
  created_at : ℚ
  last_used_at : ℚ
  is_authenticated : Bool
deriving DecidableEq

inductive Entry where
  | valid (m : SessionMetadata) : Entry
  | corrupt : Entry
deriving DecidableEq

abbrev Cache := List (String × Entry)

def cacheGet : Cache → String → Option Entry
  | [], _ => none
  | (k', v) :: rest, k => if k' = k then some v else cacheGet rest k

def cacheRemove : Cache → String → Cache
  | [], _ => []
  | (k', v) :: rest, k =>
    if k' = k then cacheRemove rest k else (k', v) :: cacheRemove rest k

def cacheSet (c : Cache) (k : String) (v : Entry) : Cache :=
  (k, v) :: cacheRemove c k

/-- The key string of SessionManager.get_session_key; the md5 hexdigest
applied on top is a fixed deterministic function of this string, so the
cache is modelled as keyed by the preimage. -/
def keyStr (base_url username environment : String) : String :=
  base_url ++ ":" ++ username ++ ":" ++ environment

/-- SessionManager.load_session: a missing file is absent; a corrupt file is
removed and treated as absent.  Returns the loaded metadata and the cache
state after the call. -/
def load_session (c : Cache) (base_url username environment : String) :
    Option SessionMetadata × Cache :=
  match cacheGet c (keyStr base_url username environment) with
  | none => (none, c)
  | some (Entry.valid m) => (some m, c)
  | some Entry.corrupt => (none, cacheRemove c (keyStr base_url username environment))

/-- SessionManager.save_session: load the existing entry (deleting it when
corrupt), keep its created_at when present, then write fresh metadata.  The
two clock reads of the source are the parameters t1 (created_at fallback)
and t2 (last_used_at); the write is modelled as succeeding, since the source
swallows persistence failures as a non-requirement. -/
def save_session (c : Cache) (base_url username environment session_id csrf_token : String)
    (route_cookie : Option String) (t1 t2 : ℚ) : Cache :=
  let lr := load_session c base_url username environment
  let created_at := match lr.1 with
    | some existing => existing.created_at
    | none => t1
  cacheSet lr.2 (keyStr base_url username environment)
    (Entry.valid
      { session_id := session_id, csrf_token := csrf_token, route_cookie := route_cookie,
        environment := environment, base_url := base_url, username := username,
        created_at := created_at, last_used_at := t2, is_authenticated := true })

/-- SessionManager.remove_session (unlink with missing_ok). -/
def remove_session (c : Cache) (base_url username environment : String) : Cache :=
  cacheRemove c (keyStr base_url username environment)

/-! ## auth.py : BasicAuthHandler -/

structure BasicAuthHandler where
  username : String
  password : Option String
  credentials_used : Bool
deriving DecidableEq

/-- BasicAuthHandler construction. -/
def mkBasicAuthHandler (username password : String) : BasicAuthHandler :=
  { username := username, password := some password, credentials_used := false }

/-- BasicAuthHandler.get_initial_credentials: raises RuntimeError once the
credentials were used; otherwise returns the form fields, marks them used
and deletes a truthy password from the instance. -/
def get_initial_credentials (h : BasicAuthHandler) :
    Except PyExc ((String × Option String) × BasicAuthHandler) :=
  if h.credentials_used then
    Except.error PyExc.runtimeError
  else
    Except.ok ((h.username, h.password),
      { h with credentials_used := true,
               password := match h.password with
                 | some p => if p ≠ "" then none else some p
                 | none => none })

/-! ## client.py : client state and the error handlers

The client state carries the pieces of HacClient the handlers touch: the
configuration key fields, the optional SessionManager cache, the in-memory
SessionInfo, and the observable behaviour of
auth_handler.get_initial_credentials() as the client sees it at this point
(either a username, or the exception the call raises). -/

instance : DecidableEq (Except PyExc String) := fun
  | Except.ok a, Except.ok b => decidable_of_iff (a = b) (by simp)
  | Except.ok _, Except.error _ => isFalse (by simp)
  | Except.error _, Except.ok _ => isFalse (by simp)
  | Except.error a, Except.error b => decidable_of_iff (a = b) (by simp)

structure ClientState where
  base_url : String
  environment : String
  cache : Option Cache
  session_info : Option SessionInfo
  creds : Except PyExc String
deriving DecidableEq

/-- The except clause (OSError, KeyError, TypeError) of
HacClient.clear_invalid_session and HacClient.touch_session. -/
def caughtByClear (e : PyExc) : Bool :=
  e.isOSError || e = PyExc.keyError || e = PyExc.typeError

/-- HacClient.clear_invalid_session: with a session manager and an in-memory
session, look up the username via the credential provider, remove the cache
entry and drop the in-memory session; exceptions in the listed classes are
swallowed, any other exception escapes (second component). -/
def clear_invalid_session (st : ClientState) : ClientState × Option PyExc :=
  match st.cache, st.session_info with
  | some c, some _ =>
    match st.creds with
    | Except.ok username =>
      ({ st with
          cache := some (remove_session c st.base_url username st.environment),
          session_info := none }, none)
    | Except.error e =>
      if caughtByClear e then (st, none) else (st, some e)
  | _, _ => (st, none)

/-- HacClient.handle_request_error: an HTTPError carrying 401, 403 or 405
clears the invalid session and raises HacAuthenticationError (or lets an
exception escaping the clearing propagate); everything else becomes
HacClientError tagged with the operation.  The returned PyExc is the
exception the NoReturn method raises. -/
def handle_request_error (st : ClientState) (error : PyExc) (operation : String) :
    ClientState × PyExc :=
  match error with
  | PyExc.httpError status =>
    if status = 401 ∨ status = 403 ∨ status = 405 then
      match clear_invalid_session st with
      | (st', some e) => (st', e)
      | (st', none) => (st', PyExc.hacAuthenticationError)
    else (st, PyExc.hacClientError operation)
  | _ => (st, PyExc.hacClientError operation)

/-- HacClient.ensure_authenticated triggers login exactly when there is no
in-memory session or it is not flagged authenticated. -/
def ensure_needs_login (st : ClientState) : Bool :=
  match st.session_info with
  | none => true
  | some info => !info.is_authenticated

/-- HacClient.build_cookie_header. -/
def build_cookie_header (st : ClientState) : String :=
  String.intercalate "; "
    ((match st.session_info with
      | some info => if info.session_id ≠ "" then ["JSESSIONID=" ++ info.session_id] else []
      | none => []) ++
     (match st.session_info with
      | some info =>
        match info.route_cookie with
        | some r => if r ≠ "" then [r] else []
        | none => []
      | none => []))

/-- The request an authenticated operation issues once
ensure_authenticated found a session flagged authenticated: the
X-CSRF-TOKEN header value and the cookie header.  none means the operation
instead enters the login path first. -/
structure OpRequest where
  csrf_header : String
  cookie_header : String
deriving DecidableEq

def op_request (st : ClientState) : Option OpRequest :=
  if ensure_needs_login st then none
  else
    match st.session_info with
    | some info => some { csrf_header := info.csrf_token, cookie_header := build_cookie_header st }
    | none => none

/-- The final check of HacClient.login (after the credential POST): fail
with HacAuthenticationError naming the missing pieces when the session id
or the CSRF token could not be established (Python falsiness: missing or
empty), otherwise store the authenticated SessionInfo.  The inputs are the
values the two extractions produced, with the empty string standing for a
missing cookie or token exactly as Python falsiness treats them. -/
def login_finalize (session_id csrf_token : String) (route_cookie : Option String) :
    Except PyExc SessionInfo :=
  if session_id = "" ∨ csrf_token = "" then
    Except.error PyExc.hacAuthenticationError
  else
    Except.ok { session_id := session_id, csrf_token := csrf_token,
                route_cookie := route_cookie, is_authenticated := true }

/-! ## client.py : execute_update and get_pending_patches

The HTTP layer is a parameter: a FetchOutcome describes what the GET of the
pending-patches endpoint does (a decoded JSON value, or the exception the
request stack raises), a PostOutcome what the final update POST does.  The
rest of the method bodies is translated directly. -/

structure Patch where
  hash : Option String
  required : Bool
deriving DecidableEq

abbrev PatchMap := List (String × List Patch)

inductive FetchOutcome where
  | ok (patches : PatchMap) : FetchOutcome
  | raises (e : PyExc) : FetchOutcome

inductive PostOutcome where
  | ok (success : Bool) (log : String) : PostOutcome
  | raises (e : PyExc) : PostOutcome

/-- HacClient.get_pending_patches, after ensure_authenticated: a
RequestException from the GET goes through handle_request_error, a
KeyError or ValueError from decoding becomes the generic HacClientError,
and a successful GET returns the decoded map. -/
def get_pending_patches (st : ClientState) (fetch : FetchOutcome) :
    ClientState × Except PyExc PatchMap :=
  match fetch with
  | FetchOutcome.ok pm => (st, Except.ok pm)
  | FetchOutcome.raises e =>
    if e.isRequestException then
      let r := handle_request_error st e "Failed to fetch pending patches"
      (r.1, Except.error r.2)
    else if e = PyExc.keyError ∨ e = PyExc.valueError then
      (st, Except.error (PyExc.hacClientError "Invalid response from HAC"))
    else (st, Except.error e)

/-- The list comprehension collecting p['hash'] for the required patches of
one category; a required patch without a hash key raises KeyError. -/
def requiredHashes : List Patch → Except PyExc (List String)
  | [] => Except.ok []
  | p :: ps =>
    if p.required then
      match p.hash with
      | none => Except.error PyExc.keyError
      | some h =>
        match requiredHashes ps with
        | Except.error e => Except.error e
        | Except.ok hs => Except.ok (h :: hs)
    else requiredHashes ps

/-- The loop filling pending_patches_payload; an exception stops the loop,
keeping the categories already added. -/
def buildPending : PatchMap → List (String × List String) × Option PyExc
  | [] => ([], none)
  | (category, patch_list) :: rest =>
    match requiredHashes patch_list with
    | Except.error e => ([], some e)
    | Except.ok hashes =>
      let r := buildPending rest
      (if hashes.isEmpty then r.1 else (category, hashes) :: r.1, r.2)

/-- The except clause (requests.RequestException, KeyError, ValueError)
guarding the transparent pending-patch fetch inside execute_update. -/
def caughtByPendingHandler (e : PyExc) : Bool :=
  e.isRequestException || e = PyExc.keyError || e = PyExc.valueError

/-- The pending-patch section of execute_update: when enabled, fetch and
fold the required hashes, swallowing only exceptions in the classes listed
by the handler; the second component is ok with the payload to post, or the
exception that escapes the section. -/
def pending_step (st : ClientState) (include_pending_patches : Bool) (fetch : FetchOutcome) :
    ClientState × Except PyExc (List (String × List String)) :=
  if include_pending_patches then
    match get_pending_patches st fetch with
    | (st', Except.ok pm) =>
      let b := buildPending pm
      match b.2 with
      | none => (st', Except.ok b.1)
      | some e => if caughtByPendingHandler e then (st', Except.ok b.1) else (st', Except.error e)
    | (st', Except.error e) =>
      if caughtByPendingHandler e then (st', Except.ok []) else (st', Except.error e)
  else (st, Except.ok [])

/-- Ordered-dict assignment d[k] = v. -/
def assocSet (l : List (String × List String)) (k : String) (v : List String) :
    List (String × List String) :=
  match l with
  | [] => [(k, v)]
  | (k', v') :: rest => if k' = k then (k, v) :: rest else (k', v') :: assocSet rest k v

structure UpdatePayload where
  dropTables : Bool
  clearHMC : Bool
  createEssentialData : Bool
  createProjectData : Bool
  localizeTypes : Bool
  initMethod : Option String
  allParameters : List (String × List String)
  patches : List (String × List String)
  parametersAsStringMap : List (String × List String)
deriving DecidableEq

/-- HacClient.touch_session: guarded by the session manager and session
being present; the credential lookup may raise, and the subsequent
session_manager.touch_session attribute does not exist on SessionManager,
so reaching it raises AttributeError; only OSError, KeyError and TypeError
are swallowed.  Returns the exception that escapes, if any. -/
def touch_session (st : ClientState) : Option PyExc :=
  match st.cache, st.session_info with
  | some _, some _ =>
    match st.creds with
    | Except.ok _ => some PyExc.attributeError
    | Except.error e => if caughtByClear e then none else some e
  | _, _ => none

/-- The outer except clauses of execute_update (and the other operations):
RequestException goes to handle_request_error, KeyError and ValueError
become the generic decode error, anything else propagates unchanged. -/
def outerCatch (st : ClientState) (e : PyExc) (operation : String) : ClientState × PyExc :=
  if e.isRequestException then handle_request_error st e operation
  else if e = PyExc.keyError ∨ e = PyExc.valueError then
    (st, PyExc.hacClientError "Invalid response from HAC")
  else (st, e)

/-- HacClient.execute_update after ensure_authenticated: merge the explicit
patch selections into all_parameters, run the pending-patch section, build
the JSON payload, let the PostOutcome decide the POST, touch the session,
and wrap escaping exceptions with the outer handler.  The ok result carries
the payload that was posted together with the parsed UpdateResult. -/
def execute_update (st : ClientState) (patches : Option (List (String × String)))
    (drop_tables clear_hmc create_essential_data create_project_data localize_types : Bool)
    (all_parameters : Option (List (String × List String)))
    (include_pending_patches : Bool) (fetch : FetchOutcome) (post : PostOutcome) :
    ClientState × Except PyExc (UpdatePayload × UpdateResult) :=
  let ap0 := all_parameters.getD []
  let ap := match patches with
    | none => ap0
    | some ps => ps.foldl (fun acc nv => assocSet acc nv.1 [nv.2]) ap0
  match pending_step st include_pending_patches fetch with
  | (st', Except.error e) =>
    let r := outerCatch st' e "Failed to execute update"
    (r.1, Except.error r.2)
  | (st', Except.ok pending_patches_payload) =>
    let payload : UpdatePayload :=
      { dropTables := drop_tables, clearHMC := clear_hmc,
        createEssentialData := create_essential_data,
        createProjectData := create_project_data,
        localizeTypes := localize_types, initMethod := none,
        allParameters := ap, patches := pending_patches_payload,
        parametersAsStringMap := ("initmethod", ["update"]) :: ap }
    match post with
    | PostOutcome.raises e =>
      let r := outerCatch st' e "Failed to execute update"
      (r.1, Except.error r.2)
    | PostOutcome.ok succ log =>
      match touch_session st' with
      | some e =>
        let r := outerCatch st' e "Failed to execute update"
        (r.1, Except.error r.2)
      | none => (st', Except.ok (payload, { success := succ, log_html := log }))

/-! ## Concrete states and data used by counterexamples and witnesses -/

def demoMetadata : SessionMetadata :=
  { session_id := "S1", csrf_token := "T1", route_cookie := none,
    environment := "local", base_url := "https://localhost:9002",
    username := "admin", created_at := 0, last_used_at := 0,
    is_authenticated := true }

def demoKey : String :=
  keyStr "https://localhost:9002" "admin" "local"

/-- A client whose BasicAuthHandler credentials were consumed during login:
get_initial_credentials now raises RuntimeError. -/
def stSpentCreds : ClientState :=
  { base_url := "https://localhost:9002", environment := "local",
    cache := some [(demoKey, Entry.valid demoMetadata)],
    session_info := some { session_id := "S1", csrf_token := "T1",
                           route_cookie := none, is_authenticated := true },
    creds := Except.error PyExc.runtimeError }

/-- A client whose credential provider still returns credentials. -/
def stFreshCreds : ClientState :=
  { stSpentCreds with creds := Except.ok "admin" }

/-- A client holding a session flagged authenticated whose session_id and
csrf_token are both empty. -/
def stEmptyFields : ClientState :=
  { base_url := "https://localhost:9002", environment := "local",
    cache := none,
    session_info := some { session_id := "", csrf_token := "",
                           route_cookie := none, is_authenticated := true },
    creds := Except.ok "admin" }

def pdPatches : ProjectData :=
  { name := "patches", description := none, parameters := [] }

def pdAcme : ProjectData :=
  { name := "acmepatches", description := some "Acme patches",
    parameters := [{ name := "Patch_MVP", label := "Patch MVP",
                     values := [("yes", true), ("no", false)],
                     legacy := false, multi_select := false, default := none }] }

def demoUpdateData : UpdateData :=
  { is_initializing := false, project_datas := [pdPatches, pdAcme] }

/-- Boolean check that a character list has no stripped whitespace at either
end (the contract of Python str.strip output). -/
def strippedB (l : List Char) : Bool :=
  (match l.head? with
   | none => true
   | some c => !isPySpace c) &&
  (match l.getLast? with
   | none => true
   | some c => !isPySpace c)

/-! ## Cache lemmas -/

theorem cacheGet_remove (c : Cache) (k : String) : cacheGet (cacheRemove c k) k = none := by
  induction c with
  | nil => rfl
  | cons kv rest ih =>
    obtain ⟨k', v⟩ := kv
    by_cases h : k' = k
    · simp [cacheRemove, h, ih]
    · simp [cacheRemove, cacheGet, h, ih]

theorem cacheGet_set_self (c : Cache) (k : String) (v : Entry) :
    cacheGet (cacheSet c k v) k = some v := by
  simp [cacheSet, cacheGet]

/-- C10: every constructed ImpexResult has a non-None validation_errors
field: a missing or None argument is normalised to the empty list by the
post-init hook, and a supplied list is kept, so callers can always iterate
the field. -/
theorem impex_validation_errors_normalized (success : Bool) (output : String)
    (error : Option String) (v : Option (List String)) :
    (mkImpexResult success output error v).validation_errors ≠ none ∧
    (v = none → (mkImpexResult success output error v).validation_errors = some []) ∧
    (∀ l, v = some l → (mkImpexResult success output error v).validation_errors = some l) := by
  refine ⟨by simp [mkImpexResult], ?_, ?_⟩
  · intro hv
    subst hv
    simp [mkImpexResult]
  · intro l hv
    subst hv
    simp [mkImpexResult]

/-- C10 witness: the normalisation evaluated at a concrete construction
with validation_errors not supplied. -/
theorem impex_validation_errors_normalized_witness :
    (mkImpexResult true "ok" none none).validation_errors = some [] :=
  (impex_validation_errors_normalized true "ok" none none).2.1 rfl

/-- C6: loading a corrupt cache entry returns absent and removes the entry:
after the call the cache holds nothing under that key. -/
theorem load_corrupt_entry_self_healing (c : Cache) (b u e : String)
    (h : cacheGet c (keyStr b u e) = some Entry.corrupt) :
    (load_session c b u e).1 = none ∧
    cacheGet (load_session c b u e).2 (keyStr b u e) = none := by
  unfold load_session
  rw [h]
  exact ⟨rfl, cacheGet_remove c (keyStr b u e)⟩

/-- C6 witness: self-healing evaluated on a one-entry cache holding corrupt
content. -/
theorem load_corrupt_entry_self_healing_witness :
    (load_session [(demoKey, Entry.corrupt)] "https://localhost:9002" "admin" "local").1 = none ∧
    cacheGet (load_session [(demoKey, Entry.corrupt)] "https://localhost:9002" "admin" "local").2
      (keyStr "https://localhost:9002" "admin" "local") = none :=
  load_corrupt_entry_self_healing [(demoKey, Entry.corrupt)]
    "https://localhost:9002" "admin" "local" (by decide)

/-- C5: saving then loading the same key returns exactly the saved metadata;
last_used_at is the save-time clock (at least the previous value under a
monotone clock), created_at is preserved from an existing parseable entry
and initialised from the clock otherwise, and the non-volatile fields of an
existing same-key entry are unchanged. -/
theorem save_then_load_round_trip (c : Cache) (b u e sid csrf : String)
    (route : Option String) (t1 t2 : ℚ) :
    ∃ m', (load_session (save_session c b u e sid csrf route t1 t2) b u e).1 = some m' ∧
      m'.session_id = sid ∧ m'.csrf_token = csrf ∧ m'.route_cookie = route ∧
      m'.environment = e ∧ m'.base_url = b ∧ m'.username = u ∧
      m'.is_authenticated = true ∧ m'.last_used_at = t2 ∧
      ((load_session c b u e).1 = none → m'.created_at = t1) ∧
      (∀ m, (load_session c b u e).1 = some m →
        m'.created_at = m.created_at ∧
        (m.last_used_at ≤ t2 → m.last_used_at ≤ m'.last_used_at) ∧
        (m.environment = e → m'.environment = m.environment) ∧
        (m.base_url = b → m'.base_url = m.base_url) ∧
        (m.username = u → m'.username = m.username) ∧
        (m.is_authenticated = true → m'.is_authenticated = m.is_authenticated)) := by
  rcases hget : cacheGet c (keyStr b u e) with _ | entry
  · refine ⟨⟨sid, csrf, route, e, b, u, t1, t2, true⟩,
      ?_, rfl, rfl, rfl, rfl, rfl, rfl, rfl, rfl, ?_, ?_⟩
    · simp [save_session, load_session, hget, cacheGet_set_self]
    · intro _; rfl
    · intro m hm
      simp [load_session, hget] at hm
  · cases entry with
    | valid m0 =>
      refine ⟨⟨sid, csrf, route, e, b, u, m0.created_at, t2, true⟩,
        ?_, rfl, rfl, rfl, rfl, rfl, rfl, rfl, rfl, ?_, ?_⟩
      · simp [save_session, load_session, hget, cacheGet_set_self]
      · intro hm
        simp [load_session, hget] at hm
      · intro m hm
        simp [load_session, hget] at hm
        subst hm
        exact ⟨rfl, fun hle => hle, fun h => h.symm, fun h => h.symm,
          fun h => h.symm, fun h => h.symm⟩
    | corrupt =>
      refine ⟨⟨sid, csrf, route, e, b, u, t1, t2, true⟩,
        ?_, rfl, rfl, rfl, rfl, rfl, rfl, rfl, rfl, ?_, ?_⟩
      · simp [save_session, load_session, hget, cacheGet_set_self]
      · intro _; rfl
      · intro m hm
        simp [load_session, hget] at hm

/-- C5 witness: the round trip evaluated on a cache already holding an
entry for the key, with a later save clock. -/
theorem save_then_load_round_trip_witness :
    ∃ m', (load_session
        (save_session [(demoKey, Entry.valid demoMetadata)]
          "https://localhost:9002" "admin" "local" "S2" "T2" none 5 7)
        "https://localhost:9002" "admin" "local").1 = some m' ∧
      m'.created_at = demoMetadata.created_at ∧ m'.last_used_at = 7 := by
  obtain ⟨m', hload, _, _, _, _, _, _, _, hlast, _, hexist⟩ :=
    save_then_load_round_trip [(demoKey, Entry.valid demoMetadata)]
      "https://localhost:9002" "admin" "local" "S2" "T2" none 5 7
  exact ⟨m', hload, (hexist demoMetadata (by decide)).1, hlast⟩

/-! ## Key-string lemmas for the session cache key -/

theorem keyStr_data (b u e : String) :
    (keyStr b u e).data = b.data ++ ':' :: (u.data ++ ':' :: e.data) := by
  cases b
  cases u
  cases e
  simp [keyStr, String.data_append]

theorem split_first_colon :
    ∀ (p₁ p₂ s₁ s₂ : List Char), (∀ c ∈ p₁, c ≠ ':') → (∀ c ∈ p₂, c ≠ ':') →
      p₁ ++ ':' :: s₁ = p₂ ++ ':' :: s₂ → p₁ = p₂ ∧ s₁ = s₂ := by
  intro p₁
  induction p₁ with
  | nil =>
    intro p₂ s₁ s₂ _ h2 heq
    cases p₂ with
    | nil => simpa using heq
    | cons d p₂' =>
      injection heq with h3 _
      exact absurd h3.symm (h2 d (by simp))
  | cons a p₁' ih =>
    intro p₂ s₁ s₂ h1 h2 heq
    cases p₂ with
    | nil =>
      injection heq with h3 _
      exact absurd h3 (h1 a (by simp))
    | cons d p₂' =>
      injection heq with h3 h4
      obtain ⟨hp, hs⟩ := ih p₂' s₁ s₂ (fun c hc => h1 c (by simp [hc]))
        (fun c hc => h2 c (by simp [hc])) h4
      exact ⟨by rw [h3, hp], hs⟩

/-- C4 counterexample: the key-string construction maps two distinct
(base_url, username, environment) tuples to the same string, because the
colon separator also occurs inside components; by determinism of the md5
hexdigest the cache keys coincide as well, refuting injectivity. -/
theorem session_key_string_collision :
    keyStr "http" "//x:u" "e" = keyStr "http://x" "u" "e" ∧
    ¬ (("http" : String) = "http://x" ∧ ("//x:u" : String) = "u" ∧ ("e" : String) = "e") := by
  constructor
  · rfl
  · intro h
    exact absurd h.1 (by decide)

/-- C4 amended: the key-string construction is injective on tuples whose
username and environment contain no colon (the base_url may contain
colons); distinct such tuples always produce distinct key strings. -/
theorem session_key_injective_on_colon_free (b₁ u₁ e₁ b₂ u₂ e₂ : String)
    (hu₁ : ∀ c ∈ u₁.data, c ≠ ':') (he₁ : ∀ c ∈ e₁.data, c ≠ ':')
    (hu₂ : ∀ c ∈ u₂.data, c ≠ ':') (he₂ : ∀ c ∈ e₂.data, c ≠ ':')
    (h : keyStr b₁ u₁ e₁ = keyStr b₂ u₂ e₂) : b₁ = b₂ ∧ u₁ = u₂ ∧ e₁ = e₂ := by
  have hd : b₁.data ++ ':' :: (u₁.data ++ ':' :: e₁.data)
      = b₂.data ++ ':' :: (u₂.data ++ ':' :: e₂.data) := by
    rw [← keyStr_data, ← keyStr_data, h]
  have hrev : e₁.data.reverse ++ ':' :: (u₁.data.reverse ++ ':' :: b₁.data.reverse)
      = e₂.data.reverse ++ ':' :: (u₂.data.reverse ++ ':' :: b₂.data.reverse) := by
    have := congrArg List.reverse hd
    simpa using this
  have hrc : ∀ (s : String), (∀ c ∈ s.data, c ≠ ':') → ∀ c ∈ s.data.reverse, c ≠ ':' := by
    intro s hs c hc
    exact hs c (List.mem_reverse.mp hc)
  obtain ⟨he, hrest⟩ := split_first_colon _ _ _ _ (hrc e₁ he₁) (hrc e₂ he₂) hrev
  obtain ⟨hu, hb⟩ := split_first_colon _ _ _ _ (hrc u₁ hu₁) (hrc u₂ hu₂) hrest
  refine ⟨?_, ?_, ?_⟩
  · exact String.ext (List.reverse_injective hb)
  · exact String.ext (List.reverse_injective hu)
  · exact String.ext (List.reverse_injective he)

/-- C4 witness: colon-free injectivity applied at concrete tuples. -/
theorem session_key_injective_on_colon_free_witness :
    ("https://localhost:9002" : String) = "https://localhost:9002" ∧
    ("admin" : String) = "admin" ∧ ("local" : String) = "local" :=
  session_key_injective_on_colon_free
    "https://localhost:9002" "admin" "local" "https://localhost:9002" "admin" "local"
    (by decide) (by decide) (by decide) (by decide) rfl

/-- C3 counterexample: the second call to
BasicAuthHandler.get_initial_credentials does not return the credentials
again: the first call consumes them and the second raises RuntimeError. -/
theorem get_initial_credentials_second_call_raises :
    get_initial_credentials (mkBasicAuthHandler "admin" "nimda") =
      Except.ok (("admin", some "nimda"),
        { username := "admin", password := none, credentials_used := true }) ∧
    get_initial_credentials
        { username := "admin", password := none, credentials_used := true } =
      Except.error PyExc.runtimeError := by
  constructor
  · simp [get_initial_credentials, mkBasicAuthHandler]
  · rfl

/-- C3 amended: get_initial_credentials is single use: on a handler whose
credentials are unused it returns the username/password form fields once,
and the very next call on the resulting handler raises RuntimeError because
the credentials were cleared from memory. -/
theorem get_initial_credentials_single_use (h : BasicAuthHandler)
    (hu : h.credentials_used = false) :
    ∃ h', get_initial_credentials h = Except.ok ((h.username, h.password), h') ∧
      get_initial_credentials h' = Except.error PyExc.runtimeError := by
  obtain ⟨un, pw, cu⟩ := h
  simp only at hu
  subst hu
  refine ⟨⟨un, (match pw with
    | some p => if p ≠ "" then none else some p
    | none => none), true⟩, ?_, rfl⟩
  simp [get_initial_credentials]

/-- C3 witness: single use evaluated on a fresh BasicAuthHandler. -/
theorem get_initial_credentials_single_use_witness :
    ∃ h', get_initial_credentials (mkBasicAuthHandler "admin" "nimda") =
        Except.ok ((("admin" : String), some ("nimda" : String)), h') ∧
      get_initial_credentials h' = Except.error PyExc.runtimeError :=
  get_initial_credentials_single_use (mkBasicAuthHandler "admin" "nimda") rfl

/-- C2: with a client whose BasicAuthHandler credentials were consumed at
login time, an authenticated operation that receives HTTP 401 does not get
the claimed behaviour: clear_invalid_session re-asks the credential
provider for the username, the provider raises RuntimeError, the except
clause (OSError, KeyError, TypeError) does not cover it, so the operation
raises RuntimeError instead of HacAuthenticationError and leaves both the
cached entry and the in-memory session in place. -/
theorem http401_with_spent_credentials_raises_runtime_error :
    handle_request_error stSpentCreds (PyExc.httpError 401) "Failed to execute Groovy script" =
      (stSpentCreds, PyExc.runtimeError) ∧
    PyExc.runtimeError ≠ PyExc.hacAuthenticationError ∧
    stSpentCreds.session_info =
      some { session_id := "S1", csrf_token := "T1",
             route_cookie := none, is_authenticated := true } ∧
    cacheGet ((handle_request_error stSpentCreds (PyExc.httpError 401)
        "Failed to execute Groovy script").1.cache.getD []) demoKey =
      some (Entry.valid demoMetadata) := by
  refine ⟨rfl, by decide, rfl, ?_⟩
  simp [handle_request_error, clear_invalid_session, stSpentCreds, caughtByClear,
    PyExc.isOSError, cacheGet, demoKey]

/-- C7 counterexample: a client holding a session flagged authenticated but
with empty session_id and csrf_token does not fail fast: the operation
prelude issues its request anyway, with an empty X-CSRF-TOKEN header and an
empty cookie header. -/
theorem operation_issues_request_with_empty_session_fields :
    stEmptyFields.session_info =
      some { session_id := "", csrf_token := "",
             route_cookie := none, is_authenticated := true } ∧
    ensure_needs_login stEmptyFields = false ∧
    op_request stEmptyFields = some { csrf_header := "", cookie_header := "" } := by
  refine ⟨rfl, rfl, ?_⟩
  simp [op_request, ensure_needs_login, build_cookie_header, stEmptyFields]
  rfl

/-- C7 amended: the fail-fast gate of an authenticated operation tests only
the presence of a session flagged authenticated, not the non-emptiness of
its fields; the non-emptiness invariant is instead established by the final
check of a fresh login, which refuses to produce a SessionInfo with an
empty session_id or csrf_token, and any session it does produce makes the
operations proceed to issue their request. -/
theorem login_establishes_nonempty_session (sid csrf : String) (route : Option String)
    (info : SessionInfo) (h : login_finalize sid csrf route = Except.ok info) :
    info.session_id ≠ "" ∧ info.csrf_token ≠ "" ∧ info.is_authenticated = true ∧
    (∀ st : ClientState, st.session_info = some info →
      ensure_needs_login st = false ∧
      op_request st = some { csrf_header := info.csrf_token,
                             cookie_header := build_cookie_header st }) := by
  unfold login_finalize at h
  split at h
  · exact absurd h (by simp)
  · rename_i hne
    push_neg at hne
    obtain ⟨hs, hc⟩ := hne
    have hinfo : info = ⟨sid, csrf, route, true⟩ := by
      injection h with h'
      exact h'.symm
    subst hinfo
    refine ⟨hs, hc, rfl, ?_⟩
    intro st hst
    constructor
    · simp [ensure_needs_login, hst]
    · simp [op_request, ensure_needs_login, hst]

/-- C7 witness: the fresh-login guarantee applied to concrete established
values. -/
theorem login_establishes_nonempty_session_witness :
    ("S1" : String) ≠ "" ∧ ("T1" : String) ≠ "" :=
  ⟨(login_establishes_nonempty_session "S1" "T1" none
      ⟨"S1", "T1", none, true⟩ (by simp [login_finalize])).1,
   (login_establishes_nonempty_session "S1" "T1" none
      ⟨"S1", "T1", none, true⟩ (by simp [login_finalize])).2.1⟩

/-! ## Error propagation out of the pending-patch fetch -/

theorem clear_invalid_session_ok_creds (st : ClientState) (username : String)
    (h : st.creds = Except.ok username) : (clear_invalid_session st).2 = none := by
  obtain ⟨bu, env, cache, si, creds⟩ := st
  simp only at h
  subst h
  cases cache <;> cases si <;> simp [clear_invalid_session]

theorem handle_request_error_second (st : ClientState) (username : String)
    (e : PyExc) (op : String) (h : st.creds = Except.ok username) :
    (handle_request_error st e op).2 = PyExc.hacAuthenticationError ∨
    (handle_request_error st e op).2 = PyExc.hacClientError op := by
  cases e with
  | httpError status =>
    simp only [handle_request_error]
    by_cases hs : status = 401 ∨ status = 403 ∨ status = 405
    · rw [if_pos hs]
      rcases hcl : clear_invalid_session st with ⟨st', exc⟩
      have h2 := clear_invalid_session_ok_creds st username h
      rw [hcl] at h2
      simp only at h2
      subst h2
      exact Or.inl rfl
    · rw [if_neg hs]
      exact Or.inr rfl
  | oserror => exact Or.inr rfl
  | keyError => exact Or.inr rfl
  | typeError => exact Or.inr rfl
  | valueError => exact Or.inr rfl
  | runtimeError => exact Or.inr rfl
  | attributeError => exact Or.inr rfl
  | requestException => exact Or.inr rfl
  | hacClientError msg => exact Or.inr rfl
  | hacAuthenticationError => exact Or.inr rfl

theorem get_pending_patches_raises_uncaught (st : ClientState) (username : String)
    (e : PyExc) (h : st.creds = Except.ok username) :
    ∃ st' e', get_pending_patches st (FetchOutcome.raises e) = (st', Except.error e') ∧
      caughtByPendingHandler e' = false := by
  unfold get_pending_patches
  by_cases hre : e.isRequestException = true
  · rcases hr : handle_request_error st e "Failed to fetch pending patches" with ⟨st', e'⟩
    have h2 := handle_request_error_second st username e "Failed to fetch pending patches" h
    rw [hr] at h2
    simp only at h2
    refine ⟨st', e', by simp [hre, hr], ?_⟩
    rcases h2 with rfl | rfl <;> simp [caughtByPendingHandler, PyExc.isRequestException]
  · by_cases hkv : e = PyExc.keyError ∨ e = PyExc.valueError
    · exact ⟨st, PyExc.hacClientError "Invalid response from HAC", by simp [hre, hkv], rfl⟩
    · push_neg at hkv
      rw [Bool.not_eq_true] at hre
      refine ⟨st, e, by simp [hre, hkv.1, hkv.2], ?_⟩
      simp [caughtByPendingHandler, hre, hkv.1, hkv.2]

theorem pending_step_fetch_failure (st : ClientState) (username : String)
    (e : PyExc) (h : st.creds = Except.ok username) :
    ∃ st' e', pending_step st true (FetchOutcome.raises e) = (st', Except.error e') ∧
      caughtByPendingHandler e' = false := by
  obtain ⟨st', e', hg, hc⟩ := get_pending_patches_raises_uncaught st username e h
  refine ⟨st', e', ?_, hc⟩
  simp [pending_step, hg, hc]

theorem outerCatch_uncaught (st : ClientState) (e : PyExc) (op : String)
    (h : caughtByPendingHandler e = false) : outerCatch st e op = (st, e) := by
  simp only [caughtByPendingHandler, Bool.or_eq_false_iff, decide_eq_false_iff_not] at h
  obtain ⟨⟨h1, h2⟩, h3⟩ := h
  simp [outerCatch, h1, h2, h3]

/-- C1: a failure of the transparent pending-patch fetch always aborts
execute_update, contradicting the claim (and the source comment stating the
update should not fail): get_pending_patches wraps every fetch failure as
HacClientError or HacAuthenticationError, which the except clause
(RequestException, KeyError, ValueError) around the fetch does not catch,
so the error propagates and the update payload is never posted.  The second
conjunct evaluates the concrete failing input: a network error during the
fetch makes execute_update raise HacClientError instead of posting without
pending patches. -/
theorem execute_update_fetch_failure_aborts :
    (∀ (st : ClientState) (username : String) (e : PyExc)
        (patches : Option (List (String × String)))
        (dt ch ced cpd lt : Bool)
        (ap : Option (List (String × List String))) (post : PostOutcome),
        st.creds = Except.ok username →
        ∃ st' e', execute_update st patches dt ch ced cpd lt ap true
            (FetchOutcome.raises e) post = (st', Except.error e')) ∧
    execute_update stFreshCreds none false false false false false none true
        (FetchOutcome.raises PyExc.requestException) (PostOutcome.ok true "ok") =
      (stFreshCreds, Except.error (PyExc.hacClientError "Failed to fetch pending patches")) := by
  constructor
  · intro st username e patches dt ch ced cpd lt ap post h
    obtain ⟨st', e', hp, hc⟩ := pending_step_fetch_failure st username e h
    refine ⟨st', e', ?_⟩
    simp only [execute_update, hp, outerCatch_uncaught st' e' "Failed to execute update" hc]
  · rfl

/-- C1 witness: the universal abort statement applied at the concrete
failing input. -/
theorem execute_update_fetch_failure_aborts_witness :
    ∃ st' e', execute_update stFreshCreds none false false false false false none true
        (FetchOutcome.raises PyExc.requestException) (PostOutcome.ok true "ok") =
      (st', Except.error e') :=
  execute_update_fetch_failure_aborts.1 stFreshCreds "admin" PyExc.requestException
    none false false false false false none (PostOutcome.ok true "ok") rfl

/-- C8: the tie-break of get_patches_extension: the result is none exactly
when no extension name contains "patches"; any result is such a candidate
drawn from the update data; when a candidate with configurable parameters
exists the result has parameters; when moreover such a candidate has a name
beyond the literal "patches" the result does too; and on the concrete data
with extensions patches (no parameters) and acmepatches (with parameters)
the result is acmepatches. -/
theorem get_patches_extension_tie_break (u : UpdateData) :
    (u.get_patches_extension = none ↔ u.project_datas.filter patchesCand = []) ∧
    (∀ r, u.get_patches_extension = some r → patchesCand r = true ∧ r ∈ u.project_datas) ∧
    ((u.project_datas.filter patchesCand).filter ProjectData.has_parameters ≠ [] →
      ∃ r, u.get_patches_extension = some r ∧ r.has_parameters = true) ∧
    (((u.project_datas.filter patchesCand).filter ProjectData.has_parameters).filter
        patchesSpecific ≠ [] →
      ∃ r, u.get_patches_extension = some r ∧ r.has_parameters = true ∧
        pyLower r.name ≠ "patches") ∧
    demoUpdateData.get_patches_extension = some pdAcme := by
  have hdemo : demoUpdateData.get_patches_extension = some pdAcme := by decide
  rcases hC : u.project_datas.filter patchesCand with _ | ⟨c0, cs⟩
  · refine ⟨?_, ?_, ?_, ?_, hdemo⟩
    · simp [UpdateData.get_patches_extension, hC]
    · intro r hr
      simp [UpdateData.get_patches_extension, hC] at hr
    · intro h
      simp at h
    · intro h
      simp at h
  · have hsub : ∀ x ∈ c0 :: cs, patchesCand x = true ∧ x ∈ u.project_datas := by
      intro x hx
      rw [← hC] at hx
      exact ⟨(List.mem_filter.mp hx).2, (List.mem_filter.mp hx).1⟩
    rcases hW : (c0 :: cs).filter ProjectData.has_parameters with _ | ⟨w0, ws⟩
    · rcases hS : (c0 :: cs).filter patchesSuffixed with _ | ⟨p0, ps⟩
      · have hres : u.get_patches_extension = some c0 := by
          simp [UpdateData.get_patches_extension, hC, hW, hS]
        refine ⟨?_, ?_, ?_, ?_, hdemo⟩
        · rw [hres]
          simp
        · intro r hr
          rw [hres] at hr
          obtain rfl : c0 = r := by simpa using hr
          exact hsub c0 (by simp)
        · intro h
          exact absurd rfl h
        · intro h
          simp at h
      · have hres : u.get_patches_extension = some p0 := by
          simp [UpdateData.get_patches_extension, hC, hW, hS]
        have hp0 : p0 ∈ (c0 :: cs).filter patchesSuffixed := by
          rw [hS]
          exact List.mem_cons_self p0 ps
        refine ⟨?_, ?_, ?_, ?_, hdemo⟩
        · rw [hres]
          simp
        · intro r hr
          rw [hres] at hr
          obtain rfl : p0 = r := by simpa using hr
          exact hsub p0 (List.mem_filter.mp hp0).1
        · intro h
          exact absurd rfl h
        · intro h
          simp at h
    · have hw0 : w0 ∈ (c0 :: cs).filter ProjectData.has_parameters := by
        rw [hW]
        exact List.mem_cons_self w0 ws
      rcases hS : (w0 :: ws).filter patchesSpecific with _ | ⟨p0, ps⟩
      · have hres : u.get_patches_extension = some w0 := by
          simp [UpdateData.get_patches_extension, hC, hW, hS]
        refine ⟨?_, ?_, ?_, ?_, hdemo⟩
        · rw [hres]
          simp
        · intro r hr
          rw [hres] at hr
          obtain rfl : w0 = r := by simpa using hr
          exact hsub w0 (List.mem_filter.mp hw0).1
        · intro _
          exact ⟨w0, hres, (List.mem_filter.mp hw0).2⟩
        · intro h
          exact absurd rfl h
      · have hres : u.get_patches_extension = some p0 := by
          simp [UpdateData.get_patches_extension, hC, hW, hS]
        have hp0 : p0 ∈ (w0 :: ws).filter patchesSpecific := by
          rw [hS]
          exact List.mem_cons_self p0 ps
        have hp0w : p0 ∈ (c0 :: cs).filter ProjectData.has_parameters := by
          rw [hW]
          exact (List.mem_filter.mp hp0).1
        refine ⟨?_, ?_, ?_, ?_, hdemo⟩
        · rw [hres]
          simp
        · intro r hr
          rw [hres] at hr
          obtain rfl : p0 = r := by simpa using hr
          exact hsub p0 (List.mem_filter.mp hp0w).1
        · intro _
          exact ⟨p0, hres, (List.mem_filter.mp hp0w).2⟩
        · intro _
          refine ⟨p0, hres, (List.mem_filter.mp hp0w).2, ?_⟩
          have := (List.mem_filter.mp hp0).2
          simpa [patchesSpecific] using this

/-- C8 witness: the parameter-preference conjunct applied at the concrete
update data of the claim. -/
theorem get_patches_extension_tie_break_witness :
    ∃ r, demoUpdateData.get_patches_extension = some r ∧ r.has_parameters = true :=
  (get_patches_extension_tie_break demoUpdateData).2.2.1 (by decide)

/-! ## Newline-run and strip lemmas for html_to_text -/

theorem dropWhile_length_le (p : Char → Bool) :
    ∀ l : List Char, (l.dropWhile p).length ≤ l.length := by
  intro l
  induction l with
  | nil => simp
  | cons c t ih =>
    rw [List.dropWhile_cons]
    split
    · exact Nat.le_trans ih (Nat.le_succ _)
    · simp

theorem dropWhile_head_not (p : Char → Bool) :
    ∀ (l : List Char) (d : Char) (r : List Char), l.dropWhile p = d :: r → p d = false := by
  intro l
  induction l with
  | nil => intro d r h; simp at h
  | cons c t ih =>
    intro d r h
    rw [List.dropWhile_cons] at h
    by_cases hc : p c = true
    · rw [if_pos hc] at h
      exact ih d r h
    · rw [if_neg hc] at h
      injection h with h1 _
      subst h1
      exact Bool.not_eq_true _ |>.mp hc

theorem dropWhile_getLast (p : Char → Bool) :
    ∀ l : List Char, l.dropWhile p ≠ [] → (l.dropWhile p).getLast? = l.getLast? := by
  intro l
  induction l with
  | nil => intro h; simp at h
  | cons c t ih =>
    intro h
    rw [List.dropWhile_cons] at h ⊢
    by_cases hc : p c = true
    · rw [if_pos hc] at h ⊢
      have ht : t ≠ [] := by
        intro ht
        subst ht
        simp [List.dropWhile] at h
      rw [ih h]
      cases t with
      | nil => exact absurd rfl ht
      | cons d r => rfl
    · rw [if_neg hc]

theorem charsContain_cons_of_mem (n : List Char) (c : Char) (t : List Char)
    (h : charsContain n t = true) : charsContain n (c :: t) = true := by
  simp [charsContain, h]

theorem charsContain_dropWhile (n : List Char) (p : Char → Bool) :
    ∀ l : List Char, charsContain n (l.dropWhile p) = true → charsContain n l = true := by
  intro l
  induction l with
  | nil => intro h; simpa using h
  | cons c t ih =>
    intro h
    rw [List.dropWhile_cons] at h
    by_cases hc : p c = true
    · rw [if_pos hc] at h
      exact charsContain_cons_of_mem n c t (ih h)
    · rwa [if_neg hc] at h

theorem charsAtFront_iff (n : List Char) :
    ∀ h : List Char, charsAtFront n h = true ↔ ∃ t, h = n ++ t := by
  induction n with
  | nil =>
    intro h
    simp [charsAtFront]
  | cons a as ih =>
    intro h
    cases h with
    | nil =>
      simp [charsAtFront]
    | cons b bs =>
      constructor
      · intro hf
        rw [charsAtFront] at hf
        split at hf
        · rename_i hab
          obtain ⟨t, ht⟩ := (ih bs).mp hf
          exact ⟨t, by rw [ht, hab]; rfl⟩
        · exact absurd hf (by simp)
      · rintro ⟨t, ht⟩
        injection ht with h1 h2
        subst h1
        rw [charsAtFront, if_pos rfl]
        exact (ih bs).mpr ⟨t, h2⟩

theorem charsContain_iff (n : List Char) :
    ∀ h : List Char, charsContain n h = true ↔ ∃ s t, h = s ++ (n ++ t) := by
  intro h
  induction h with
  | nil =>
    rw [charsContain]
    constructor
    · intro hn
      exact ⟨[], [], by simp [List.isEmpty_iff.mp hn]⟩
    · rintro ⟨s, t, hst⟩
      have h1 := List.append_eq_nil.mp hst.symm
      have h2 := List.append_eq_nil.mp h1.2
      simp [h2.1, List.isEmpty_iff]
  | cons c t ih =>
    rw [charsContain, Bool.or_eq_true]
    constructor
    · rintro (hf | hc)
      · obtain ⟨tt, htt⟩ := (charsAtFront_iff n (c :: t)).mp hf
        exact ⟨[], tt, by simpa using htt⟩
      · obtain ⟨s, tt, hst⟩ := ih.mp hc
        exact ⟨c :: s, tt, by rw [hst]; rfl⟩
    · rintro ⟨s, tt, hst⟩
      cases s with
      | nil =>
        left
        exact (charsAtFront_iff n (c :: t)).mpr ⟨tt, by simpa using hst⟩
      | cons d s' =>
        right
        injection hst with h1 h2
        exact ih.mpr ⟨s', tt, h2⟩

theorem charsContain_reverse_of (n h : List Char)
    (hc : charsContain n h = true) : charsContain n.reverse h.reverse = true := by
  obtain ⟨s, t, hst⟩ := (charsContain_iff n h).mp hc
  refine (charsContain_iff n.reverse h.reverse).mpr ⟨t.reverse, s.reverse, ?_⟩
  rw [hst]
  simp

theorem collapseGo_head (f : Nat) :
    ∀ l : List Char, l.length ≤ f → (collapseGo f l).head? = l.head? := by
  induction f with
  | zero =>
    intro l h
    cases l with
    | nil => rfl
    | cons c t => simp at h
  | succ f ih =>
    intro l h
    cases l with
    | nil => rfl
    | cons c t =>
      rw [collapseGo]
      by_cases hc : c = '\n'
      · rw [if_pos hc]
        subst hc
        split
        · rfl
        · rw [Nat.add_comm 1 (List.takeWhile (fun d => decide (d = '\n')) t).length,
            List.replicate_succ]
          rfl
      · rw [if_neg hc]
        rfl

theorem atFront_newlines_false (y : List Char) (hy : ∀ d r, y = d :: r → ¬ d = '\n') :
    charsAtFront ['\n'] y = false ∧ charsAtFront ['\n', '\n'] y = false := by
  cases y with
  | nil => exact ⟨rfl, rfl⟩
  | cons d r =>
    have hd := hy d r rfl
    constructor
    · rw [charsAtFront, if_neg (fun h => hd h.symm)]
    · rw [charsAtFront, if_neg (fun h => hd h.symm)]

theorem atFront_trip_pad (y : List Char) (hy : ∀ d r, y = d :: r → ¬ d = '\n') :
    charsAtFront ['\n', '\n', '\n'] ('\n' :: y) = false ∧
    charsAtFront ['\n', '\n', '\n'] ('\n' :: '\n' :: y) = false := by
  have h := atFront_newlines_false y hy
  constructor
  · rw [charsAtFront, if_pos rfl]
    exact h.2
  · rw [charsAtFront, if_pos rfl, charsAtFront, if_pos rfl]
    exact h.1

theorem noTriple_pad (m : Nat) (hm : m ≤ 2) (y : List Char)
    (hY : charsContain ['\n', '\n', '\n'] y = false)
    (hhead : ∀ d r, y = d :: r → ¬ d = '\n') :
    charsContain ['\n', '\n', '\n'] (List.replicate m '\n' ++ y) = false := by
  interval_cases m
  · simpa using hY
  · show charsContain ['\n', '\n', '\n'] ('\n' :: y) = false
    rw [charsContain, (atFront_trip_pad y hhead).1, hY]
    rfl
  · show charsContain ['\n', '\n', '\n'] ('\n' :: '\n' :: y) = false
    rw [charsContain, (atFront_trip_pad y hhead).2,
      charsContain, (atFront_trip_pad y hhead).1, hY]
    rfl

theorem collapseGo_noTriple (f : Nat) :
    ∀ l : List Char, l.length ≤ f →
      charsContain ['\n', '\n', '\n'] (collapseGo f l) = false := by
  induction f with
  | zero =>
    intro l h
    cases l with
    | nil => rfl
    | cons c t => simp at h
  | succ f ih =>
    intro l h
    cases l with
    | nil => rfl
    | cons c t =>
      rw [collapseGo]
      by_cases hc : c = '\n'
      · rw [if_pos hc]
        have hlt : (List.dropWhile (fun d => decide (d = '\n')) t).length ≤ f :=
          le_trans (dropWhile_length_le _ t) (Nat.le_of_succ_le_succ h)
        have hY := ih _ hlt
        have hhead : ∀ d r,
            collapseGo f (List.dropWhile (fun d => decide (d = '\n')) t) = d :: r →
            ¬ d = '\n' := by
          intro d r hdr hdn
          subst hdn
          have h1 : (collapseGo f (List.dropWhile (fun d => decide (d = '\n')) t)).head?
              = some '\n' := by rw [hdr]; rfl
          rw [collapseGo_head f _ hlt] at h1
          rcases hdw : List.dropWhile (fun d => decide (d = '\n')) t with _ | ⟨e, r'⟩
          · rw [hdw] at h1
            simp at h1
          · rw [hdw] at h1
            have he : e = '\n' := by simpa using h1
            have hnot := dropWhile_head_not _ t e r' hdw
            rw [he] at hnot
            simp at hnot
        split
        · exact noTriple_pad 2 (by omega) _ hY hhead
        · rename_i hrun
          exact noTriple_pad _ (by omega) _ hY hhead
      · rw [if_neg hc]
        rw [charsContain]
        have hfr : charsAtFront ['\n', '\n', '\n'] (c :: collapseGo f t) = false := by
          rw [charsAtFront, if_neg (fun hh => hc hh.symm)]
        rw [hfr, ih t (Nat.le_of_succ_le_succ h)]
        rfl

theorem collapseNewlines_noTriple (l : List Char) :
    charsContain ['\n', '\n', '\n'] (collapseNewlines l) = false :=
  collapseGo_noTriple l.length l le_rfl

theorem pyStrip_noTriple (l : List Char)
    (h : charsContain ['\n', '\n', '\n'] l = false) :
    charsContain ['\n', '\n', '\n'] (pyStrip l) = false := by
  by_contra hcon
  rw [Bool.not_eq_false] at hcon
  have h1 := charsContain_reverse_of _ _ hcon
  rw [show (['\n', '\n', '\n'] : List Char).reverse = ['\n', '\n', '\n'] from rfl] at h1
  rw [pyStrip, List.reverse_reverse] at h1
  have h2 := charsContain_dropWhile _ _ _ h1
  have h3 := charsContain_reverse_of _ _ h2
  rw [show (['\n', '\n', '\n'] : List Char).reverse = ['\n', '\n', '\n'] from rfl,
    List.reverse_reverse] at h3
  have h4 := charsContain_dropWhile _ _ _ h3
  rw [h] at h4
  exact absurd h4 (by simp)

theorem pyStrip_stripped (l : List Char) : strippedB (pyStrip l) = true := by
  rw [pyStrip]
  rcases hB : (l.dropWhile isPySpace).reverse.dropWhile isPySpace with _ | ⟨b0, br⟩
  · rfl
  · have hlast : ((b0 :: br).reverse).getLast? = some b0 := by
      rw [List.getLast?_reverse]
      rfl
    have hb0 : isPySpace b0 = false := dropWhile_head_not _ _ b0 br hB
    have hne : (l.dropWhile isPySpace).reverse.dropWhile isPySpace ≠ [] := by
      rw [hB]
      simp
    have h2 : ((b0 :: br) : List Char).getLast? = (l.dropWhile isPySpace).reverse.getLast? := by
      rw [← hB]
      exact dropWhile_getLast _ _ hne
    rw [List.getLast?_reverse] at h2
    have hhead : ((b0 :: br).reverse).head? = (l.dropWhile isPySpace).head? := by
      rw [List.head?_reverse]
      exact h2
    rcases hAh : l.dropWhile isPySpace with _ | ⟨a0, ar⟩
    · rw [hAh] at hB
      simp at hB
    · have ha0 : isPySpace a0 = false := dropWhile_head_not _ _ a0 ar hAh
      rw [hAh] at hhead
      rw [strippedB, hhead, hlast]
      simp [ha0, hb0]

/-- C9: html_to_text is the pure pipeline of the source: the claimed
example conversions hold (br tags to newlines, other tags stripped, HTML
entities decoded, newline runs collapsed, surrounding whitespace trimmed),
and for every input string the output contains no run of three newlines
and carries no stripped whitespace at either end. -/
theorem html_to_text_pipeline :
    (html_to_text "line1<br/>line2<br>line3" = "line1\nline2\nline3") ∧
    (html_to_text "a<br>b<i>x</i>c&amp;d" = "a\nbxc&d") ∧
    (html_to_text "  a\n\n\n\n\nb  " = "a\n\nb") ∧
    (html_to_text "&lt;p&gt;" = "<p>") ∧
    (∀ s : String, charsContain "\n\n\n".data (html_to_text s).data = false) ∧
    (∀ s : String, strippedB (html_to_text s).data = true) := by
  refine ⟨by decide, by decide, by decide, by decide, ?_, ?_⟩
  · intro s
    exact pyStrip_noTriple _ (collapseNewlines_noTriple _)
  · intro s
    exact pyStrip_stripped _
